import Mathlib

/-!
Verification of the web3-rpc-racer latency-probing / failover library.

The development shallowly embeds the library's core:

* `RPCService.testRpcPerformance`, `RPCService.findFastestRpc` and
  `RPCService._verifyBlock` (src/unnamed/part_001, the current revision of
  the rpc service);
* the `RPCHandler` probe-cycle orchestration (`testRpcPerformance`,
  `_testRpcPerformance`, `populateRuntimeFromNetwork`) and the failover
  proxy installed by `createProviderProxy` (src/types/rpc-handler.ts,
  current revision).

Network behaviour is made explicit: each probe request's settlement is an
`HttpOutcome` supplied by an environment function, and each provider method
call settles to a `CallOutcome`.  JavaScript objects used as string-keyed
maps become insertion-ordered association lists, JS string helpers are
embedded on the character-list view of `String`, and durations are naturals.
-/

/-- JS `s.startsWith(p)`, on the character-list view of strings. -/
def jsStartsWith (s p : String) : Bool := p.toList.isPrefixOf s.toList

/-- Locate the first occurrence of the two-character separator `__` in a
character list, returning the text before it and the text after it. -/
def breakOnSep : List Char → Option (List Char × List Char)
  | [] => none
  | '_' :: '_' :: rest => some ([], rest)
  | c :: rest => (breakOnSep rest).map (fun p => (c :: p.1, p.2))

/-- JS `s.split("__")[1]`: the text between the first occurrence of `__` and
the following one (or the end of the string).  The sources apply this only
to strings that contain the separator; when it is absent the JS value is
`undefined`, rendered here as the empty string. -/
def jsSplitIdx1 (s : String) : String :=
  match breakOnSep s.toList with
  | none => ""
  | some p =>
    match breakOnSep p.2 with
    | none => String.mk p.2
    | some q => String.mk q.1

/-- The composite latency-table key `"<networkId>__<rpcUrl>"` used throughout
the sources. -/
def scopeKey (networkId rpcUrl : String) : String := networkId ++ "__" ++ rpcUrl

/-- JS object property assignment `obj[k] = v` on an insertion-ordered
association list: overwrite in place when the key is present, append at the
end otherwise. -/
def jsAssign : List (String × Nat) → String → Nat → List (String × Nat)
  | [], k, v => [(k, v)]
  | p :: rest, k, v => if p.1 == k then (k, v) :: rest else p :: jsAssign rest k v

/-- JS object property read `obj[k]` (`none` when the key is absent). -/
def jsLookup (l : List (String × Nat)) (k : String) : Option Nat :=
  (l.find? (fun p => p.1 == k)).map Prod.snd

/-- The `result` member of a probe response body
(`ValidBlockData` in src/types/handler). -/
structure BlockResult where
  number : String
  timestamp : String
  hash : String

/-- A probe response body (`ValidBlockData` in src/types/handler).  `result`
is optional because `_verifyBlock` destructures it inside a try/catch: a
missing member makes the destructuring throw, which the catch turns into
`false`. -/
structure ValidBlockData where
  jsonrpc : String
  id : Int
  result : Option BlockResult

/-- How the axios POST issued by `makeRpcRequest` settles: it resolves with a
body within the timeout, aborts on timeout (`ECONNABORTED`), or rejects with
some other transport error. -/
inductive HttpOutcome where
  | resolved (body : ValidBlockData) (duration : Nat)
  | timeout (duration : Nat)
  | transportError

/-- The settled value of one probe request (the `PromiseResult` type of
src/unnamed/part_001). -/
structure PromiseResult where
  success : Bool
  rpcUrl : String
  duration : Nat

/-- `makeRpcRequest` (src/unnamed/part_001 lines 5-34): a resolved POST is a
success carrying the measured duration; a timeout is a failure that still
carries the elapsed duration; any other error is a failure with duration 0.
The response body is never inspected. -/
def makeRpcRequest (rpcUrl : String) (o : HttpOutcome) : PromiseResult :=
  match o with
  | .resolved _ d => { rpcUrl := rpcUrl, duration := d, success := true }
  | .timeout d => { rpcUrl := rpcUrl, duration := d, success := false }
  | .transportError => { rpcUrl := rpcUrl, duration := 0, success := false }

/-- Value of a hexadecimal digit character, as accepted by JS `parseInt`
with radix 16. -/
def hexVal (c : Char) : Option Nat :=
  if '0' ≤ c ∧ c ≤ '9' then some (c.toNat - '0'.toNat)
  else if 'a' ≤ c ∧ c ≤ 'f' then some (c.toNat - 'a'.toNat + 10)
  else if 'A' ≤ c ∧ c ≤ 'F' then some (c.toNat - 'A'.toNat + 10)
  else none

/-- JS `parseInt(s, 16)`: skip leading whitespace, read an optional sign and
an optional `0x`/`0X` marker, then take the longest run of hexadecimal
digits; the result is NaN (`none`) when that run is empty. -/
def parseIntHex (s : String) : Option Int :=
  let cs0 := s.toList.dropWhile (fun c => c = ' ' ∨ c = '\t' ∨ c = '\n' ∨ c = '\r')
  let sign : Int := match cs0 with | '-' :: _ => -1 | _ => 1
  let cs1 := match cs0 with
    | '-' :: r => r
    | '+' :: r => r
    | r => r
  let cs2 := match cs1 with
    | '0' :: 'x' :: r => r
    | '0' :: 'X' :: r => r
    | r => r
  let ds := cs2.takeWhile (fun c => (hexVal c).isSome)
  if ds.isEmpty then none
  else some (sign * ((ds.foldl (fun a c => a * 16 + (hexVal c).getD 0) 0 : Nat) : Int))

/-- Length of `hash.match(/[0-9|a-f|A-F|x]/gm)?.join("")`: the number of
characters of the string lying in the regex character class, which contains
the digits, `a`-`f`, `A`-`F`, `x`, and the literal `|`.  When no character
matches, `match` returns null and reading `.length` throws, which the
caller's catch turns into `false`; a count of 0 never equals 66, so the
rendering below agrees with the code on every input. -/
def hashMatchLen (s : String) : Nat :=
  (s.toList.filter (fun c =>
    decide (('0' ≤ c ∧ c ≤ '9') ∨ ('a' ≤ c ∧ c ≤ 'f') ∨ ('A' ≤ c ∧ c ≤ 'F') ∨
      c = 'x' ∨ c = '|'))).length

namespace RPCService

/-- `RPCService._verifyBlock` (src/unnamed/part_001 lines 94-104): the
protocol version must equal `"2.0"`, the id must equal 1, the two numeric
fields must `parseInt` (base 16) to values greater than zero, and the count
of regex-class characters of the hash must equal 66.  A missing `result`
member makes the destructuring throw, caught to `false`. -/
def _verifyBlock (data : ValidBlockData) : Bool :=
  match data.result with
  | none => false
  | some r =>
    data.jsonrpc == "2.0" && data.id == 1 &&
    (match parseIntHex r.number with | some n => decide (0 < n) | none => false) &&
    (match parseIntHex r.timestamp with | some t => decide (0 < t) | none => false) &&
    (hashMatchLen r.hash == 66)

/-- The body of the `allResults.forEach` walk in `testRpcPerformance`
(src/unnamed/part_001 lines 55-65): a fulfilled success stores its duration
under the composite key; a fulfilled failure is spliced out of the runtime
list (`indexOf` / `splice` remove the first occurrence, `List.erase`). -/
def recordResult (networkId : String) (acc : List (String × Nat) × List String)
    (result : PromiseResult) : List (String × Nat) × List String :=
  if result.success then
    (jsAssign acc.1 (scopeKey networkId result.rpcUrl) result.duration, acc.2)
  else
    (acc.1, acc.2.erase result.rpcUrl)

/-- The `Promise.race` block of `testRpcPerformance` (src/unnamed/part_001
lines 47-51): the race winner is the request that settles first, at index
`w`; when it succeeded its latency is stored ahead of the full walk. -/
def raceUpdate (networkId : String) (latencies : List (String × Nat))
    (results : List PromiseResult) (w : Nat) : List (String × Nat) :=
  match results[w]? with
  | some fastest =>
    if fastest.success then jsAssign latencies (scopeKey networkId fastest.rpcUrl) fastest.duration
    else latencies
  | none => latencies

/-- `RPCService.testRpcPerformance` (src/unnamed/part_001 lines 37-68): fan
out one request per runtime rpc, record the race winner's latency when it
succeeded, then walk all settled results, recording each success's latency
under the composite key and splicing each failed rpc out of the runtime
list.  The network is the environment `env`; `w` is the index of the request
that settles first and wins the `Promise.race` (every request resolves, so
`Promise.allSettled` only ever sees fulfilled results). -/
def testRpcPerformance (networkId : String) (latencies : List (String × Nat))
    (runtimeRpcs : List String) (env : String → HttpOutcome) (w : Nat) :
    List (String × Nat) × List String :=
  let results := runtimeRpcs.map (fun rpcUrl => makeRpcRequest rpcUrl (env rpcUrl))
  results.foldl (recordResult networkId) (raceUpdate networkId latencies results w, runtimeRpcs)

/-- `RPCService.findFastestRpc` (src/unnamed/part_001 lines 70-92): throw
when the whole table is empty; otherwise filter the table to the keys
carrying the scope's prefix and reduce to the key of least duration (on a
tie the reduce keeps its second argument, i.e. the later key), returning the
text after the prefix.  When the filtered set is empty the reduce of an
empty array throws a TypeError that the catch converts to null
(`Except.ok none`). -/
def findFastestRpc (latencies : List (String × Nat)) (networkId : String) :
    Except String (Option String) :=
  if latencies.length = 0 then .error "[RPCService] No latencies found"
  else
    let validLatencies := latencies.filter (fun p => jsStartsWith p.1 (networkId ++ "__"))
    match validLatencies.map Prod.fst with
    | [] => .ok none
    | k :: ks =>
      .ok (some (jsSplitIdx1 (ks.foldl
        (fun a b =>
          if (jsLookup validLatencies a).getD 0 < (jsLookup validLatencies b).getD 0 then a else b)
        k)))

end RPCService

/-- The `RPCHandler` fields the probe cycle touches (src/types/rpc-handler.ts,
current revision): the scope id, the latency table, the runtime candidate
list, the registered endpoint list, the refresh counter and its threshold,
and the currently bound provider's url. -/
structure RPCHandlerState where
  networkId : String
  latencies : List (String × Nat)
  runtimeRpcs : List String
  networkRpcs : List String
  refreshLatencies : Nat
  cacheRefreshCycles : Nat
  provider : Option String

namespace RPCHandler

/-- The staleness decision of `RPCHandler.testRpcPerformance`
(rpc-handler.ts lines 490-491): refresh when the table holds at most one
key with the scope's prefix, or the refresh counter has reached the
configured number of cycles. -/
def shouldRefreshRpcs (s : RPCHandlerState) : Bool :=
  decide ((s.latencies.filter (fun p => jsStartsWith p.1 (s.networkId ++ "__"))).length ≤ 1) ||
  decide (s.refreshLatencies ≥ s.cacheRefreshCycles)

/-- `RPCHandler.populateRuntimeFromNetwork` (rpc-handler.ts lines 479-487):
strip the scope prefix from prefixed entries, pass the rest through. -/
def populateRuntimeFromNetwork (networkId : String) (rpcs : List String) : List String :=
  rpcs.map (fun rpc => if jsStartsWith rpc (networkId ++ "__") then jsSplitIdx1 rpc else rpc)

/-- The candidate-set rebuild at the top of `RPCHandler.testRpcPerformance`
(rpc-handler.ts lines 489-503): a stale cache reloads the full registered
list and zeroes the counter; otherwise a non-empty table supplies the
candidates; otherwise an empty runtime list falls back to the registered
list. -/
def refreshRuntimeRpcs (s : RPCHandlerState) : RPCHandlerState :=
  if shouldRefreshRpcs s then
    { s with runtimeRpcs := populateRuntimeFromNetwork s.networkId s.networkRpcs,
             refreshLatencies := 0 }
  else if 0 < s.latencies.length then
    { s with runtimeRpcs := populateRuntimeFromNetwork s.networkId (s.latencies.map Prod.fst) }
  else if s.runtimeRpcs.length = 0 then
    { s with runtimeRpcs := populateRuntimeFromNetwork s.networkId s.networkRpcs }
  else s

/-- `RPCHandler._testRpcPerformance` (rpc-handler.ts lines 596-617): run one
service probe cycle, adopt the returned table and runtime list, and bump the
refresh counter. -/
def probeStep (s : RPCHandlerState) (env : String → HttpOutcome) (w : Nat) : RPCHandlerState :=
  let r := RPCService.testRpcPerformance s.networkId s.latencies s.runtimeRpcs env w
  { s with latencies := r.1, runtimeRpcs := r.2, refreshLatencies := s.refreshLatencies + 1 }

/-- One full probe cycle: the candidate-set rebuild followed by
`_testRpcPerformance`. -/
def probedState (s : RPCHandlerState) (env : String → HttpOutcome) (w : Nat) : RPCHandlerState :=
  probeStep (refreshRuntimeRpcs s) env w

/-- The selection step of `RPCHandler.testRpcPerformance` (rpc-handler.ts
lines 507-515): a `findFastestRpc` exception propagates; a falsy url (null
from an empty filtered set, or the empty string) triggers the fatal log and
`throw`. -/
def selectProvider (s : RPCHandlerState) : Except String String :=
  match RPCService.findFastestRpc s.latencies s.networkId with
  | .error msg => .error msg
  | .ok none => .error "Failed to find fastest RPC"
  | .ok (some url) => if url = "" then .error "Failed to find fastest RPC" else .ok url

/-- `RPCHandler.testRpcPerformance` (rpc-handler.ts lines 489-536): rebuild
the candidate set, probe, then select and bind the fastest provider,
throwing when selection fails. -/
def testRpcPerformance (s : RPCHandlerState) (env : String → HttpOutcome) (w : Nat) :
    Except String RPCHandlerState :=
  let s1 := probedState s env w
  match selectProvider s1 with
  | .error m => .error m
  | .ok url => .ok { s1 with provider := some url }

end RPCHandler

/-- How one JS provider method call settles: it resolves with a response
value (truthy iff non-zero here) or rejects with an error, identified by a
numeric code. -/
inductive CallOutcome where
  | ok (resp : Nat)
  | err (e : Nat)
deriving DecidableEq

/-- The mutable state of the proxy's retry loop: the `loops` counter, the
`res` variable, and the `(pass, latency-key)` attempts made so far. -/
structure PassState where
  loops : Nat
  res : Option Nat
  attempts : List (Nat × String)
deriving DecidableEq

/-- One `for (const [rpc] of sortedLatencies)` pass of the failover loop
inside `createProviderProxy` (rpc-handler.ts lines 420-459): each candidate
key is split to its url and called; a truthy response is stored in `res`
and zeroes `loops`; an error caught while `loops === 1` is rethrown,
terminating the whole call, and otherwise the loop sleeps `retryDelay` and
moves to the next candidate. -/
def runPass (call : Nat → String → CallOutcome) (p : Nat) :
    List String → PassState → Except (Nat × List (Nat × String)) PassState
  | [], st => .ok st
  | rpc :: rest, st =>
    let attempts := st.attempts ++ [(p, rpc)]
    match call p (jsSplitIdx1 rpc) with
    | .ok resp =>
      if resp ≠ 0 then runPass call p rest { loops := 0, res := some resp, attempts := attempts }
      else runPass call p rest { st with attempts := attempts }
    | .err e =>
      if st.loops = 1 then .error (e, attempts)
      else runPass call p rest { st with attempts := attempts }

/-- The overall outcome of one proxied method call. -/
inductive FailoverResult where
  | primarySuccess (resp : Nat)
  | noRpcsThrown
  | thrown (e : Nat)
  | finished (res : Option Nat)
deriving DecidableEq

/-- The `while (loops > 0)` wrapper of the failover loop (rpc-handler.ts
lines 419-466): run passes until one stores a result (`if (res) break`),
an error is rethrown, or the counter runs out, in which case `res` (still
null) is returned normally.  The second component traces every candidate
attempt as a `(pass, latency-key)` pair. -/
def runLoops (call : Nat → String → CallOutcome) (rpcs : List String) :
    Nat → Nat → List (Nat × String) → FailoverResult × List (Nat × String)
  | 0, _, tr => (.finished none, tr)
  | l + 1, p, tr =>
    match runPass call p rpcs { loops := l + 1, res := none, attempts := tr } with
    | .error pr => (.thrown pr.1, pr.2)
    | .ok st =>
      match st.res with
      | some r => (.finished (some r), st.attempts)
      | none => runLoops call rpcs l (p + 1) st.attempts

/-- Stable insertion of an entry into a duration-sorted list: before the
first strictly slower entry is too early for stability, so the entry goes
before the first entry of duration at least its own. -/
def insertByDuration (x : String × Nat) : List (String × Nat) → List (String × Nat)
  | [] => [x]
  | y :: ys => if x.2 ≤ y.2 then x :: y :: ys else y :: insertByDuration x ys

/-- `Object.entries(latencies).sort((a, b) => a[1] - b[1])`: a stable
ascending sort of the table by duration. -/
def sortByDuration (l : List (String × Nat)) : List (String × Nat) :=
  l.foldr insertByDuration []

/-- The async wrapper the proxy installs around every provider method
(rpc-handler.ts lines 375-467): try the bound provider first and return a
truthy response; otherwise snapshot and sort the full latency table, throw
when the snapshot is empty (the code throws the void result of the fatal
`No RPCs available` log), and otherwise run the retry loop.  Returns the
outcome with the trace of failover attempts. -/
def proxyCall (latencies : List (String × Nat)) (retryCount : Nat)
    (primary : CallOutcome) (call : Nat → String → CallOutcome) :
    FailoverResult × List (Nat × String) :=
  let fallback :=
    let sortedLatencies := sortByDuration latencies
    if sortedLatencies.isEmpty then (FailoverResult.noRpcsThrown, [])
    else runLoops call (sortedLatencies.map Prod.fst) retryCount 0 []
  match primary with
  | .ok resp => if resp ≠ 0 then (FailoverResult.primarySuccess resp, []) else fallback
  | .err _ => fallback

/-- A proxied method call seen from the handler: the proxy's `get` trap
reads `handler.getLatencies()` but writes no handler field, so the state
comes back untouched and in particular the bound primary provider is never
replaced. -/
def proxyInvoke (hs : RPCHandlerState) (retryCount : Nat) (primary : CallOutcome)
    (call : Nat → String → CallOutcome) :
    (FailoverResult × List (Nat × String)) × RPCHandlerState :=
  (proxyCall hs.latencies retryCount primary call, hs)

/-- The fold computing `res` along one pass: each truthy response replaces
the accumulator. -/
def lastTruthyFold (call : Nat → String → CallOutcome) (p : Nat)
    (rpcs : List String) (acc : Option Nat) : Option Nat :=
  rpcs.foldl
    (fun acc rpc =>
      match call p (jsSplitIdx1 rpc) with
      | .ok resp => if resp ≠ 0 then some resp else acc
      | .err _ => acc)
    acc

/-- The last truthy response among the calls of one pass over the
candidates. -/
def lastTruthyResp (call : Nat → String → CallOutcome) (p : Nat)
    (rpcs : List String) : Option Nat :=
  lastTruthyFold call p rpcs none

/-- The attempts the failover loop performs when every call errs: full
passes while the counter exceeds one, then only the first candidate of the
final pass. -/
def allErrTrace (rpc0 : String) (rest : List String) (p : Nat) : Nat → List (Nat × String)
  | 0 => [(p, rpc0)]
  | l + 1 => (rpc0 :: rest).map (fun rpc => (p, rpc)) ++ allErrTrace rpc0 rest (p + 1) l

/-- The §4.2 hash shape written exactly as the specification words it:
exactly 66 characters, `0x` followed by 64 hexadecimal digits
(case-insensitive).  Stated from the spec, to be compared with the code's
`_verifyBlock`. -/
def specHashWellFormed (s : String) : Bool :=
  s.toList.length == 66 &&
  (match s.toList with
   | '0' :: 'x' :: rest =>
     rest.all (fun c =>
       decide (('0' ≤ c ∧ c ≤ '9') ∨ ('a' ≤ c ∧ c ≤ 'f') ∨ ('A' ≤ c ∧ c ≤ 'F')))
   | _ => false)

/-- Membership in the character class of the `_verifyBlock` hash regex,
as a proposition (used to state the amended validator claim independently
of the code's filter). -/
def charInHashClass (c : Char) : Prop :=
  ('0' ≤ c ∧ c ≤ '9') ∨ ('a' ≤ c ∧ c ≤ 'f') ∨ ('A' ≤ c ∧ c ≤ 'F') ∨ c = 'x' ∨ c = '|'

instance (c : Char) : Decidable (charInHashClass c) := by
  unfold charInHashClass; infer_instance

/-- A probe response whose body fails `_verifyBlock` (wrong protocol
version) but whose request resolves within the timeout. -/
def invalidProbeBlock : ValidBlockData :=
  ⟨"1.0", 1, some ⟨"0x10", "0x5f5", "0x" ++ String.mk (List.replicate 64 'a')⟩⟩

/-- A network in which the only endpoint answers quickly with the invalid
body above. -/
def invalidRespEnv : String → HttpOutcome := fun _ => .resolved invalidProbeBlock 5

/-- C1: the probe cycle records a latency entry for an endpoint whose
response fails `_verifyBlock`: the validator is never invoked by
`testRpcPerformance` (it is dead code), so a fast-but-invalid response does
count as a measured latency, contradicting the claimed iff. -/
theorem C1_latency_recorded_for_invalid_response :
    (RPCService.testRpcPerformance "1" [] ["https://a"] invalidRespEnv 0).1 =
      [("1__https://a", 5)] ∧
    RPCService._verifyBlock invalidProbeBlock = false := by
  constructor
  · rfl
  · decide

/-- A 66-character hash consisting solely of the letter `a`. -/
def hash66a : String := String.mk (List.replicate 66 'a')

/-- A probe response body whose hash has 66 regex-class characters but
not the `0x`-prefixed shape the claim describes. -/
def looseHashBlock : ValidBlockData := ⟨"2.0", 1, some ⟨"0x10", "0x5f5", hash66a⟩⟩

/-- C6 counterexample: `_verifyBlock` accepts a 66-character hash with no
`0x` prefix (the regex check merely counts class characters), so the
claimed iff with the `0x`+64-hex shape fails. -/
theorem C6_counterexample :
    RPCService._verifyBlock looseHashBlock = true ∧ specHashWellFormed hash66a = false := by
  constructor
  · decide
  · decide

/-- Calls for the C2 counterexample: on the first pass both endpoints
return truthy responses. -/
def c2Call : Nat → String → CallOutcome := fun p u =>
  if p = 0 then (if u = "A" then .ok 11 else .ok 22) else .err 0

/-- C2 counterexample: with snapshot `[A:10, B:20]` and both calls
succeeding on pass 0, the loop still attempts B after A's success (no
short-circuit inside a pass) and returns B's response, not A's. -/
theorem C2_counterexample :
    proxyCall [("1__A", 10), ("1__B", 20)] 2 (.err 0) c2Call =
      (.finished (some 22), [(0, "1__A"), (0, "1__B")]) ∧
    (proxyCall [("1__A", 10), ("1__B", 20)] 2 (.err 0) c2Call).1 ≠
      .finished (some 11) := by
  constructor
  · rfl
  · decide

/-- Calls for the C3 counterexample: every call errs, with distinct error
codes per pass and candidate. -/
def c3Call : Nat → String → CallOutcome := fun p u =>
  if p = 0 then (if u = "A" then .err 1 else .err 2)
  else (if u = "A" then .err 3 else .err 4)

/-- C3 counterexample: with snapshot `[A:10, B:20]`, `retryCount = 2` and
every call failing, the dispatcher rethrows the raw error of the FIRST
candidate of the final pass (code 3): candidate B is never attempted on the
final pass, so the failure does not carry the error of the last candidate
of the last pass (code 4), nor any `FailoverExhausted` wrapper with the
snapshot. -/
theorem C3_counterexample :
    proxyCall [("1__A", 10), ("1__B", 20)] 2 (.err 0) c3Call =
      (.thrown 3, [(0, "1__A"), (0, "1__B"), (1, "1__A")]) ∧
    (1, "1__B") ∉ (proxyCall [("1__A", 10), ("1__B", 20)] 2 (.err 0) c3Call).2 ∧
    (3 : Nat) ≠ 4 := by
  refine ⟨rfl, ?_, by decide⟩
  decide

/-- C4 counterexample: two scope-1 entries tie at duration 80; the reduce
keeps the later key on a tie, so selection returns `b`, not the
lexicographically smallest endpoint `a`. -/
theorem C4_counterexample :
    RPCService.findFastestRpc [("1__a", 80), ("1__b", 80)] "1" = .ok (some "b") ∧
    "b" ≠ "a" := by
  constructor
  · rfl
  · decide

/-- A well-formed probe response body (content irrelevant to the probe,
which never reads it). -/
def okBlock : ValidBlockData := ⟨"2.0", 1, some ⟨"0x1", "0x1", ""⟩⟩

/-- First probe cycle of the C10 counterexample: every endpoint succeeds. -/
def envCycle1 : String → HttpOutcome := fun u =>
  if u = "A" then .resolved okBlock 10
  else if u = "B" then .resolved okBlock 20
  else .resolved okBlock 30

/-- Second probe cycle of the C10 counterexample: B fails, A and C
succeed. -/
def envCycle2 : String → HttpOutcome := fun u =>
  if u = "B" then .transportError
  else if u = "A" then .resolved okBlock 11
  else .resolved okBlock 31

/-- Initial handler state for the C10 counterexample: three registered
endpoints, threshold 3, empty table. -/
def c10State : RPCHandlerState := ⟨"1", [], [], ["A", "B", "C"], 0, 3, none⟩

/-- C10 counterexample: after a first cycle in which A, B, C all succeed
and a second in which B's probe fails (so B is spliced out of the runtime
list), the third cycle's refresh decision is FRESH (not a STALE reload),
yet B re-enters the candidate set, because its stale latency entry
survives in the table and the FRESH rebuild reloads all table keys.  This
contradicts the claim that a removed endpoint re-enters only via a STALE
refresh of the full registered list. -/
theorem C10_counterexample :
    (RPCHandler.probedState (RPCHandler.probedState c10State envCycle1 0) envCycle2 0).runtimeRpcs
      = ["A", "C"] ∧
    RPCHandler.shouldRefreshRpcs
      (RPCHandler.probedState (RPCHandler.probedState c10State envCycle1 0) envCycle2 0) = false ∧
    "B" ∈ (RPCHandler.refreshRuntimeRpcs
      (RPCHandler.probedState (RPCHandler.probedState c10State envCycle1 0) envCycle2 0)).runtimeRpcs := by
  refine ⟨rfl, by decide, by decide⟩

/-- C7: a failover invocation whose latency table holds no entry for the
dispatcher's scope (and, as for every reachable handler state, no entry for
any other scope either) throws before the retry loop: the outcome is the
empty-snapshot throw and the attempt trace is empty, and the handler state
is untouched. -/
theorem C7_empty_snapshot_throws (hs : RPCHandlerState) (retryCount e : Nat)
    (call : Nat → String → CallOutcome)
    (hscope : hs.latencies.filter (fun p => jsStartsWith p.1 (hs.networkId ++ "__")) = [])
    (hall : ∀ p ∈ hs.latencies, jsStartsWith p.1 (hs.networkId ++ "__") = true) :
    proxyInvoke hs retryCount (.err e) call = ((.noRpcsThrown, []), hs) := by
  have hnil : hs.latencies = [] := by
    cases hl : hs.latencies with
    | nil => rfl
    | cons a t =>
      exfalso
      have ha : jsStartsWith a.1 (hs.networkId ++ "__") = true :=
        hall a (by rw [hl]; exact List.mem_cons_self a t)
      rw [hl, List.filter_cons, ha] at hscope
      simp at hscope
  have hp : proxyCall hs.latencies retryCount (CallOutcome.err e) call =
      (FailoverResult.noRpcsThrown, []) := by
    rw [hnil]
    rfl
  simp [proxyInvoke, hp]

/-- C7 witness: a handler with an empty latency table. -/
theorem C7_empty_snapshot_throws_witness :
    proxyInvoke ⟨"1", [], [], [], 0, 10, none⟩ 3 (.err 7) (fun _ _ => .err 0) =
      ((.noRpcsThrown, []), ⟨"1", [], [], [], 0, 10, none⟩) :=
  C7_empty_snapshot_throws ⟨"1", [], [], [], 0, 10, none⟩ 3 7 (fun _ _ => .err 0)
    rfl (fun _ hp => nomatch hp)

/-- The filter inside `hashMatchLen` counts exactly the characters lying in
the regex class `charInHashClass`. -/
theorem hashMatchLen_eq_countP (s : String) :
    hashMatchLen s = List.countP (fun c => decide (charInHashClass c)) s.data := by
  rw [List.countP_eq_length_filter]
  rfl

/-- C6 amended: `_verifyBlock` returns `true` iff the response carries a
`result` object, the protocol version is `"2.0"`, the id is 1, both numeric
fields parse (base 16, JS `parseInt`) to positive values, and the hash
contains exactly 66 characters of the regex class (digits, `a`-`f`,
`A`-`F`, `x`, `|`) anywhere in the string; the `0x`-prefixed 64-hex-digit
shape is not enforced.  Totality of the embedding reflects that the
function never raises. -/
theorem C6_verifyBlock_characterization (d : ValidBlockData) :
    RPCService._verifyBlock d = true ↔
      ∃ r, d.result = some r ∧ d.jsonrpc = "2.0" ∧ d.id = 1 ∧
        (∃ n : Int, parseIntHex r.number = some n ∧ 0 < n) ∧
        (∃ t : Int, parseIntHex r.timestamp = some t ∧ 0 < t) ∧
        r.hash.toList.countP (fun c => decide (charInHashClass c)) = 66 := by
  obtain ⟨j, i, res⟩ := d
  cases res with
  | none => simp [RPCService._verifyBlock]
  | some r =>
    cases hn : parseIntHex r.number with
    | none => simp [RPCService._verifyBlock, hn]
    | some n =>
      cases ht : parseIntHex r.timestamp with
      | none => simp [RPCService._verifyBlock, hn, ht]
      | some t =>
        simp [RPCService._verifyBlock, hn, ht, ← hashMatchLen_eq_countP,
          and_assoc, eq_comm (a := j)]

/-- C5: the refresh policy of `RPCHandler.testRpcPerformance`.  The cache
is stale iff the table holds at most one scope entry or the counter has
reached the threshold; a stale cycle reloads the full registered list and
zeroes the counter; a fresh cycle re-probes the endpoints keyed in the
table (their keys stripped of the scope prefix) and keeps the counter; and
every probe cycle then increments the counter by one.  The hypotheses state
the key-shape invariants of reachable handler states: registered endpoints
are bare urls, and every table key carries this scope's prefix. -/
theorem C5_refresh_policy (s : RPCHandlerState) (env : String → HttpOutcome) (w : Nat)
    (hnet : ∀ r ∈ s.networkRpcs, jsStartsWith r (s.networkId ++ "__") = false)
    (hkeys : ∀ p ∈ s.latencies, jsStartsWith p.1 (s.networkId ++ "__") = true) :
    (RPCHandler.shouldRefreshRpcs s = true ↔
      ((s.latencies.filter (fun p => jsStartsWith p.1 (s.networkId ++ "__"))).length ≤ 1 ∨
        s.cacheRefreshCycles ≤ s.refreshLatencies)) ∧
    (RPCHandler.shouldRefreshRpcs s = true →
      (RPCHandler.refreshRuntimeRpcs s).runtimeRpcs = s.networkRpcs ∧
      (RPCHandler.refreshRuntimeRpcs s).refreshLatencies = 0) ∧
    (RPCHandler.shouldRefreshRpcs s = false →
      (RPCHandler.refreshRuntimeRpcs s).runtimeRpcs =
        s.latencies.map (fun p => jsSplitIdx1 p.1) ∧
      (RPCHandler.refreshRuntimeRpcs s).refreshLatencies = s.refreshLatencies) ∧
    (RPCHandler.probedState s env w).refreshLatencies =
      (if RPCHandler.shouldRefreshRpcs s then 0 else s.refreshLatencies) + 1 := by
  refine ⟨?_, ?_, ?_, ?_⟩
  · simp [RPCHandler.shouldRefreshRpcs, ge_iff_le]
  · intro h
    constructor
    · simp only [RPCHandler.refreshRuntimeRpcs, h, if_true, RPCHandler.populateRuntimeFromNetwork]
      calc s.networkRpcs.map
            (fun rpc => if jsStartsWith rpc (s.networkId ++ "__") then jsSplitIdx1 rpc else rpc)
          = s.networkRpcs.map id := by
            apply List.map_congr_left
            intro r hr
            simp [hnet r hr]
        _ = s.networkRpcs := List.map_id s.networkRpcs
    · simp [RPCHandler.refreshRuntimeRpcs, h]
  · intro h
    have hlen : 0 < s.latencies.length := by
      have h2 : ¬ ((s.latencies.filter
          (fun p => jsStartsWith p.1 (s.networkId ++ "__"))).length ≤ 1) := by
        intro hc
        simp [RPCHandler.shouldRefreshRpcs, hc] at h
      have h3 := List.length_filter_le (fun p => jsStartsWith p.1 (s.networkId ++ "__"))
        s.latencies
      omega
    constructor
    · simp only [RPCHandler.refreshRuntimeRpcs, h, Bool.false_eq_true, if_false, hlen, if_true,
        RPCHandler.populateRuntimeFromNetwork, List.map_map]
      apply List.map_congr_left
      intro p hp
      simp [Function.comp, hkeys p hp]
    · simp [RPCHandler.refreshRuntimeRpcs, h, hlen]
  · show (RPCHandler.refreshRuntimeRpcs s).refreshLatencies + 1 = _
    cases h : RPCHandler.shouldRefreshRpcs s with
    | true => simp [RPCHandler.refreshRuntimeRpcs, h]
    | false =>
      simp only [RPCHandler.refreshRuntimeRpcs, h, Bool.false_eq_true, if_false, if_true]
      split
      · rfl
      · split <;> rfl

/-- A fresh-path handler state used to instantiate the refresh-policy
theorem: two scope-1 entries, counter 1, threshold 3. -/
def c5State : RPCHandlerState :=
  ⟨"1", [("1__A", 10), ("1__B", 20)], ["A", "B"], ["A", "B"], 1, 3, none⟩

/-- C5 witness: the refresh policy instantiated at a concrete fresh-path
state, with the FRESH branch's implication discharged. -/
theorem C5_refresh_policy_witness :
    (RPCHandler.refreshRuntimeRpcs c5State).runtimeRpcs =
      c5State.latencies.map (fun p => jsSplitIdx1 p.1) ∧
    (RPCHandler.refreshRuntimeRpcs c5State).refreshLatencies = c5State.refreshLatencies ∧
    (RPCHandler.probedState c5State (fun _ => HttpOutcome.transportError) 0).refreshLatencies =
      (if RPCHandler.shouldRefreshRpcs c5State then 0 else c5State.refreshLatencies) + 1 :=
  ⟨((C5_refresh_policy c5State (fun _ => HttpOutcome.transportError) 0
      (by decide) (by decide)).2.2.1 (by decide)).1,
    ((C5_refresh_policy c5State (fun _ => HttpOutcome.transportError) 0
      (by decide) (by decide)).2.2.1 (by decide)).2,
    (C5_refresh_policy c5State (fun _ => HttpOutcome.transportError) 0
      (by decide) (by decide)).2.2.2⟩

/-- Reading a cons cell: the head answers when its key matches. -/
theorem jsLookup_cons (q : String × Nat) (l : List (String × Nat)) (k : String) :
    jsLookup (q :: l) k = if q.1 == k then some q.2 else jsLookup l k := by
  simp only [jsLookup, List.find?]
  cases hq : q.1 == k <;> simp

/-- `jsLookup` after a `jsAssign`: the assigned key reads the stored value,
every other key is untouched. -/
theorem jsLookup_jsAssign (k k' : String) (v : Nat) :
    ∀ l : List (String × Nat),
      jsLookup (jsAssign l k' v) k = if k = k' then some v else jsLookup l k := by
  intro l
  induction l with
  | nil =>
    simp only [jsAssign]
    rw [jsLookup_cons]
    by_cases h : k = k'
    · subst h
      simp
    · have hb : (k' == k) = false := beq_eq_false_iff_ne.mpr (Ne.symm h)
      simp [hb, h, jsLookup]
  | cons q rest ih =>
    by_cases hq : q.1 = k'
    · simp only [jsAssign, hq, beq_self_eq_true, if_true]
      rw [jsLookup_cons, jsLookup_cons]
      by_cases h : k = k'
      · subst h
        simp
      · have hb : (k' == k) = false := beq_eq_false_iff_ne.mpr (Ne.symm h)
        have hqk : (q.1 == k) = false := by rw [hq]; exact hb
        simp [hb, hqk, h]
    · have hqb : (q.1 == k') = false := beq_eq_false_iff_ne.mpr hq
      simp only [jsAssign, hqb, Bool.false_eq_true, if_false]
      rw [jsLookup_cons, jsLookup_cons]
      by_cases hk : q.1 = k
      · have hkk' : ¬ k = k' := fun hh => hq (hk.trans hh)
        have hqk : (q.1 == k) = true := beq_iff_eq.mpr hk
        simp [hqk, hkk']
      · have hqk : (q.1 == k) = false := beq_eq_false_iff_ne.mpr hk
        simp only [hqk, Bool.false_eq_true, if_false]
        exact ih

/-- The composite key builder is injective in the endpoint for a fixed
scope. -/
theorem scopeKey_inj (nid u v : String) (h : scopeKey nid u = scopeKey nid v) : u = v := by
  have h2 := congrArg String.data h
  simp only [scopeKey, String.data_append, List.append_cancel_left_eq] at h2
  exact String.ext h2

/-- The url of a settled request is the url it was sent to. -/
theorem makeRpcRequest_rpcUrl (v : String) (o : HttpOutcome) :
    (makeRpcRequest v o).rpcUrl = v := by
  cases o <;> rfl

/-- The forEach walk leaves `jsLookup` unchanged at every key that is not
the composite key of a successful result. -/
theorem foldl_recordResult_preserve (nid k : String) :
    ∀ (results : List PromiseResult) (acc : List (String × Nat) × List String),
      (∀ r ∈ results, r.success = true → k ≠ scopeKey nid r.rpcUrl) →
      jsLookup (results.foldl (RPCService.recordResult nid) acc).1 k = jsLookup acc.1 k := by
  intro results
  induction results with
  | nil => intro acc _; rfl
  | cons r rest ih =>
    intro acc hno
    rw [List.foldl_cons, ih _ (fun x hx => hno x (List.mem_cons_of_mem r hx))]
    cases hs : r.success with
    | false => simp [RPCService.recordResult, hs]
    | true =>
      simp only [RPCService.recordResult, hs, if_true]
      rw [jsLookup_jsAssign, if_neg (hno r (List.mem_cons_self r rest) hs)]

/-- A key whose `jsLookup` the forEach walk changed is the composite key of
some successful result. -/
theorem foldl_recordResult_changed (nid k : String) (results : List PromiseResult)
    (acc : List (String × Nat) × List String)
    (h : jsLookup (results.foldl (RPCService.recordResult nid) acc).1 k ≠ jsLookup acc.1 k) :
    ∃ r ∈ results, r.success = true ∧ k = scopeKey nid r.rpcUrl := by
  by_contra hno
  push_neg at hno
  exact h (foldl_recordResult_preserve nid k results acc hno)

/-- A key whose `jsLookup` the race update changed is the composite key of
a successful result. -/
theorem raceUpdate_changed (nid k : String) (lat : List (String × Nat))
    (results : List PromiseResult) (w : Nat)
    (h : jsLookup (RPCService.raceUpdate nid lat results w) k ≠ jsLookup lat k) :
    ∃ r ∈ results, r.success = true ∧ k = scopeKey nid r.rpcUrl := by
  unfold RPCService.raceUpdate at h
  split at h
  case h_1 f hw =>
    split at h
    case isTrue hfs =>
      have hk : k = scopeKey nid f.rpcUrl := by
        by_contra hne
        rw [jsLookup_jsAssign, if_neg hne] at h
        exact h rfl
      exact ⟨f, List.getElem?_mem hw, hfs, hk⟩
    case isFalse hfs => exact absurd rfl h
  case h_2 hw => exact absurd rfl h

/-- A key whose `jsLookup` a whole probe cycle changed is the composite key
of some candidate whose request succeeded. -/
theorem testRpc_lookup_changed (nid : String) (lat : List (String × Nat))
    (rts : List String) (env : String → HttpOutcome) (w : Nat) (k : String)
    (h : jsLookup (RPCService.testRpcPerformance nid lat rts env w).1 k ≠ jsLookup lat k) :
    ∃ v ∈ rts, (makeRpcRequest v (env v)).success = true ∧ k = scopeKey nid v := by
  simp only [RPCService.testRpcPerformance] at h
  set results := rts.map (fun rpcUrl => makeRpcRequest rpcUrl (env rpcUrl)) with hres
  have hcases : ∃ r ∈ results, r.success = true ∧ k = scopeKey nid r.rpcUrl := by
    by_cases hmid : jsLookup (RPCService.raceUpdate nid lat results w) k = jsLookup lat k
    · apply foldl_recordResult_changed nid k results
        (RPCService.raceUpdate nid lat results w, rts)
      rw [hmid]
      exact h
    · exact raceUpdate_changed nid k lat results w hmid
  obtain ⟨r, hr, hrs, hkk⟩ := hcases
  rw [hres] at hr
  obtain ⟨v, hv, rfl⟩ := List.mem_map.mp hr
  exact ⟨v, hv, hrs, by rw [hkk, makeRpcRequest_rpcUrl]⟩

/-- C9: a probe cycle records latency entries only for candidates whose
request succeeded: the entry of a candidate with no measurement is exactly
what it was before the cycle, every changed key belongs to a successful
candidate, and the registered endpoint list is untouched by a probe
cycle. -/
theorem C9_only_successes_recorded (networkId : String) (latencies : List (String × Nat))
    (runtimeRpcs : List String) (env : String → HttpOutcome) (w : Nat) (u : String)
    (s : RPCHandlerState) (env2 : String → HttpOutcome) (w2 : Nat)
    (_hu : u ∈ runtimeRpcs) (hf : (makeRpcRequest u (env u)).success = false) :
    jsLookup (RPCService.testRpcPerformance networkId latencies runtimeRpcs env w).1
        (scopeKey networkId u) = jsLookup latencies (scopeKey networkId u) ∧
    (∀ k, jsLookup (RPCService.testRpcPerformance networkId latencies runtimeRpcs env w).1 k ≠
        jsLookup latencies k →
      ∃ v ∈ runtimeRpcs, (makeRpcRequest v (env v)).success = true ∧ k = scopeKey networkId v) ∧
    (RPCHandler.probedState s env2 w2).networkRpcs = s.networkRpcs := by
  refine ⟨?_, fun k hk => testRpc_lookup_changed networkId latencies runtimeRpcs env w k hk, ?_⟩
  · by_contra hne
    obtain ⟨v, _, hvs, hkey⟩ :=
      testRpc_lookup_changed networkId latencies runtimeRpcs env w (scopeKey networkId u) hne
    rw [scopeKey_inj networkId u v hkey] at hf
    rw [hvs] at hf
    simp at hf
  · show (RPCHandler.refreshRuntimeRpcs s).networkRpcs = s.networkRpcs
    unfold RPCHandler.refreshRuntimeRpcs
    split
    · rfl
    · split
      · rfl
      · split <;> rfl

/-- C9 witness: candidate `u` times out while `v` succeeds; `u`'s entry
survives unchanged. -/
theorem C9_only_successes_recorded_witness :
    ("u" ∈ ["u", "v"]) ∧
    jsLookup (RPCService.testRpcPerformance "1" [("1__u", 7)] ["u", "v"]
        (fun x => if x = "v" then HttpOutcome.resolved okBlock 4 else HttpOutcome.timeout 3) 0).1
        (scopeKey "1" "u") = jsLookup [("1__u", 7)] (scopeKey "1" "u") :=
  ⟨by decide,
    (C9_only_successes_recorded "1" [("1__u", 7)] ["u", "v"]
      (fun x => if x = "v" then HttpOutcome.resolved okBlock 4 else HttpOutcome.timeout 3) 0 "u"
      c5State (fun _ => HttpOutcome.transportError) 0 (by decide) (by decide)).1⟩

/-- The runtime-list half of the forEach body: failures splice their url
out (first occurrence), successes leave the list alone. -/
def spliceFailed (rs : List String) (result : PromiseResult) : List String :=
  if result.success then rs else rs.erase result.rpcUrl

/-- The runtime-list component of the forEach walk evolves independently of
the latency component. -/
theorem foldl_recordResult_snd (nid : String) :
    ∀ (results : List PromiseResult) (acc : List (String × Nat) × List String),
      (results.foldl (RPCService.recordResult nid) acc).2 =
        results.foldl spliceFailed acc.2 := by
  intro results
  induction results with
  | nil => intro acc; rfl
  | cons r rest ih =>
    intro acc
    rw [List.foldl_cons, List.foldl_cons, ih]
    cases hs : r.success <;> simp [RPCService.recordResult, spliceFailed, hs]

/-- Splicing failures whose urls all differ from `x` never touches a
leading `x`. -/
theorem foldl_spliceFailed_cons (x : String) :
    ∀ (results : List PromiseResult) (acc : List String),
      (∀ r ∈ results, r.success = false → r.rpcUrl ≠ x) →
      results.foldl spliceFailed (x :: acc) = x :: results.foldl spliceFailed acc := by
  intro results
  induction results with
  | nil => intro acc _; rfl
  | cons r rest ih =>
    intro acc hno
    rw [List.foldl_cons, List.foldl_cons]
    cases hs : r.success with
    | true =>
      simp only [spliceFailed, hs, if_true]
      exact ih acc (fun q hq => hno q (List.mem_cons_of_mem r hq))
    | false =>
      have hne : (x == r.rpcUrl) = false :=
        beq_eq_false_iff_ne.mpr (Ne.symm (hno r (List.mem_cons_self r rest) hs))
      simp only [spliceFailed, hs, Bool.false_eq_true, if_false, List.erase_cons, hne]
      exact ih _ (fun q hq => hno q (List.mem_cons_of_mem r hq))

/-- Folding the splices of a candidate list's own results over that list
keeps exactly the candidates whose request succeeded, in order. -/
theorem foldl_spliceFailed_filter (env : String → HttpOutcome) :
    ∀ rpcs : List String,
      (rpcs.map (fun rpcUrl => makeRpcRequest rpcUrl (env rpcUrl))).foldl spliceFailed rpcs =
        rpcs.filter (fun v => (makeRpcRequest v (env v)).success) := by
  intro rpcs
  induction rpcs with
  | nil => rfl
  | cons x xs ih =>
    rw [List.map_cons, List.foldl_cons]
    cases hsx : (makeRpcRequest x (env x)).success with
    | false =>
      have hx : spliceFailed (x :: xs) (makeRpcRequest x (env x)) = xs := by
        simp [spliceFailed, hsx, makeRpcRequest_rpcUrl, List.erase_cons]
      rw [hx, ih, List.filter_cons_of_neg (by simp [hsx])]
    | true =>
      have hx : spliceFailed (x :: xs) (makeRpcRequest x (env x)) = x :: xs := by
        simp [spliceFailed, hsx]
      rw [hx, foldl_spliceFailed_cons x _ xs ?hno, ih,
        List.filter_cons_of_pos (by simp [hsx])]
      case hno =>
        intro r hr hrf
        obtain ⟨v, _, rfl⟩ := List.mem_map.mp hr
        rw [makeRpcRequest_rpcUrl]
        intro hvx
        rw [hvx] at hrf
        rw [hsx] at hrf
        simp at hrf

/-- C10 amended: a probe cycle returns exactly the candidates whose request
succeeded (failures are spliced out in place, first occurrence each); and a
spliced-out endpoint re-enters the candidate list at the next cycle's
rebuild, not only via a STALE reload: on a FRESH rebuild, every key present
in the latency table (such as a stale entry recorded for the endpoint
before its failure) contributes its stripped endpoint to the candidate
set. -/
theorem C10_failed_candidates_spliced (networkId : String) (latencies : List (String × Nat))
    (runtimeRpcs : List String) (env : String → HttpOutcome) (w : Nat)
    (s : RPCHandlerState) (k : String) :
    (RPCService.testRpcPerformance networkId latencies runtimeRpcs env w).2 =
      runtimeRpcs.filter (fun v => (makeRpcRequest v (env v)).success) ∧
    (RPCHandler.shouldRefreshRpcs s = false →
      k ∈ s.latencies.map Prod.fst →
      jsStartsWith k (s.networkId ++ "__") = true →
      jsSplitIdx1 k ∈ (RPCHandler.refreshRuntimeRpcs s).runtimeRpcs) := by
  constructor
  · simp only [RPCService.testRpcPerformance]
    rw [foldl_recordResult_snd]
    exact foldl_spliceFailed_filter env runtimeRpcs
  · intro hfresh hk hpre
    have hlen : 0 < s.latencies.length := by
      cases hl : s.latencies with
      | nil => rw [hl] at hk; simp at hk
      | cons a t => simp [hl]
    simp only [RPCHandler.refreshRuntimeRpcs, hfresh, Bool.false_eq_true, if_false,
      hlen, if_true, RPCHandler.populateRuntimeFromNetwork, List.map_map]
    obtain ⟨p, hp, rfl⟩ := List.mem_map.mp hk
    apply List.mem_map.mpr
    refine ⟨p, hp, ?_⟩
    simp [Function.comp, hpre]

/-- C10 witness: one failing candidate among three, and a FRESH rebuild
restoring a stale key, implications discharged concretely. -/
theorem C10_failed_candidates_spliced_witness :
    (RPCService.testRpcPerformance "1" [] ["A", "B", "C"] envCycle2 0).2 =
      List.filter (fun v => (makeRpcRequest v (envCycle2 v)).success) ["A", "B", "C"] ∧
    jsSplitIdx1 "1__B" ∈ (RPCHandler.refreshRuntimeRpcs c5State).runtimeRpcs :=
  ⟨(C10_failed_candidates_spliced "1" [] ["A", "B", "C"] envCycle2 0 c5State "1__B").1,
    (C10_failed_candidates_spliced "1" [] ["A", "B", "C"] envCycle2 0 c5State "1__B").2
      (by decide) (by decide) (by decide)⟩

/-- Starting the `res` fold from an arbitrary accumulator is the fold from
null with the accumulator as fallback. -/
theorem lastTruthyFold_or (call : Nat → String → CallOutcome) (p : Nat) :
    ∀ (rpcs : List String) (a : Option Nat),
      lastTruthyFold call p rpcs a = (lastTruthyFold call p rpcs none).or a := by
  intro rpcs
  induction rpcs with
  | nil => intro a; simp [lastTruthyFold]
  | cons rpc rest ih =>
    intro a
    have hstep : ∀ b : Option Nat, lastTruthyFold call p (rpc :: rest) b =
        lastTruthyFold call p rest
          (match call p (jsSplitIdx1 rpc) with
           | .ok resp => if resp ≠ 0 then some resp else b
           | .err _ => b) := by
      intro b
      simp only [lastTruthyFold, List.foldl_cons]
    rw [hstep a, hstep none]
    cases hc : call p (jsSplitIdx1 rpc) with
    | ok resp =>
      by_cases hr : resp = 0
      · simp only [hr, ne_eq, not_true_eq_false, if_false]
        exact ih a
      · simp only [ne_eq, hr, not_false_eq_true, if_true]
        rw [ih (some resp), Option.or_assoc]
        simp
    | err e => exact ih a

/-- A pass that runs to completion attempted every candidate, in order. -/
theorem runPass_ok_attempts (call : Nat → String → CallOutcome) (p : Nat) :
    ∀ (rpcs : List String) (st st' : PassState),
      runPass call p rpcs st = .ok st' →
      st'.attempts = st.attempts ++ rpcs.map (fun rpc => (p, rpc)) := by
  intro rpcs
  induction rpcs with
  | nil =>
    intro st st' h
    cases h
    simp
  | cons rpc rest ih =>
    intro st st' h
    simp only [runPass] at h
    split at h
    case h_1 resp heq =>
      split at h
      · rw [ih _ _ h]
        simp
      · rw [ih _ _ h]
        simp
    case h_2 e heq =>
      split at h
      · simp at h
      · rw [ih _ _ h]
        simp

/-- A pass that runs to completion leaves in `res` the last truthy response
of the pass, or its incoming value when there was none. -/
theorem runPass_ok_res (call : Nat → String → CallOutcome) (p : Nat) :
    ∀ (rpcs : List String) (st st' : PassState),
      runPass call p rpcs st = .ok st' →
      st'.res = (lastTruthyResp call p rpcs).or st.res := by
  intro rpcs
  induction rpcs with
  | nil =>
    intro st st' h
    cases h
    simp [lastTruthyResp, lastTruthyFold]
  | cons rpc rest ih =>
    intro st st' h
    simp only [runPass] at h
    split at h
    case h_1 resp heq =>
      split at h
      case isTrue hr =>
        have hfold : lastTruthyResp call p (rpc :: rest) =
            lastTruthyFold call p rest (some resp) := by
          simp only [lastTruthyResp, lastTruthyFold, List.foldl_cons, heq, ne_eq, hr,
            not_false_eq_true, if_true]
        rw [ih _ _ h, hfold, lastTruthyFold_or call p rest (some resp), Option.or_assoc]
        simp [lastTruthyResp]
      case isFalse hr =>
        have hfold : lastTruthyResp call p (rpc :: rest) =
            lastTruthyFold call p rest none := by
          simp only [lastTruthyResp, lastTruthyFold, List.foldl_cons, heq, ne_eq, hr,
            not_true_eq_false, if_false]
        rw [ih _ _ h, hfold]
        rfl
    case h_2 e heq =>
      split at h
      · simp at h
      · have hfold : lastTruthyResp call p (rpc :: rest) =
            lastTruthyFold call p rest none := by
          simp only [lastTruthyResp, lastTruthyFold, List.foldl_cons, heq]
        rw [ih _ _ h, hfold]
        rfl

/-- C2 amended: when some candidate's ephemeral call returns a truthy
response during a pass, the pass still runs to its end (every candidate of
the pass is attempted, successes overwriting `res`), the dispatcher then
stops: no later pass executes and the returned result is the LAST truthy
response of that pass — not necessarily the first succeeding candidate's —
and the handler state, in particular the primary bound provider, is never
changed by the proxy. -/
theorem C2_success_short_circuits_passes (call : Nat → String → CallOutcome)
    (rpcs : List String) (l p : Nat) (tr : List (Nat × String)) (st : PassState) (r : Nat)
    (h1 : runPass call p rpcs { loops := l + 1, res := none, attempts := tr } = .ok st)
    (h2 : st.res = some r) :
    runLoops call rpcs (l + 1) p tr = (.finished (some r), st.attempts) ∧
    st.attempts = tr ++ rpcs.map (fun rpc => (p, rpc)) ∧
    lastTruthyResp call p rpcs = some r ∧
    ∀ (hs : RPCHandlerState) (rc : Nat) (primary : CallOutcome)
      (c : Nat → String → CallOutcome), (proxyInvoke hs rc primary c).2 = hs := by
  refine ⟨?_, runPass_ok_attempts call p rpcs _ st h1, ?_, fun _ _ _ _ => rfl⟩
  · simp only [runLoops, h1, h2]
  · have hres := runPass_ok_res call p rpcs _ st h1
    rw [h2] at hres
    simpa using hres.symm

/-- Calls for the C2 amended witness: A and B fail, C succeeds, on the
first pass. -/
def c2wCall : Nat → String → CallOutcome := fun p u =>
  if p = 0 then (if u = "C" then .ok 33 else .err 9) else .err 0

/-- C2 amended witness: the spec's scenario — A and B fail, C succeeds on
pass 1 of 2 — instantiated concretely. -/
theorem C2_success_short_circuits_passes_witness :
    runLoops c2wCall ["1__A", "1__B", "1__C"] 2 0 [] =
      (.finished (some 33), [(0, "1__A"), (0, "1__B"), (0, "1__C")]) ∧
    lastTruthyResp c2wCall 0 ["1__A", "1__B", "1__C"] = some 33 :=
  ⟨(C2_success_short_circuits_passes c2wCall ["1__A", "1__B", "1__C"] 1 0 []
      ⟨0, some 33, [(0, "1__A"), (0, "1__B"), (0, "1__C")]⟩ 33 rfl rfl).1,
    (C2_success_short_circuits_passes c2wCall ["1__A", "1__B", "1__C"] 1 0 []
      ⟨0, some 33, [(0, "1__A"), (0, "1__B"), (0, "1__C")]⟩ 33 rfl rfl).2.2.1⟩

/-- When every call errs and the loop counter is not 1, a pass completes
without throwing, changing nothing but the attempt trace. -/
theorem runPass_allErr (E : Nat → String → Nat) (p : Nat) :
    ∀ (rpcs : List String) (st : PassState), st.loops ≠ 1 →
      runPass (fun q u => .err (E q u)) p rpcs st =
        .ok { st with attempts := st.attempts ++ rpcs.map (fun rpc => (p, rpc)) } := by
  intro rpcs
  induction rpcs with
  | nil => intro st _; simp [runPass]
  | cons rpc rest ih =>
    intro st hl
    simp only [runPass, hl, if_false]
    rw [ih { st with attempts := st.attempts ++ [(p, rpc)] } hl]
    simp

/-- One non-final pass of the all-error loop: a full pass of attempts, then
the next round with a decremented counter. -/
theorem runLoops_allErr_step (E : Nat → String → Nat) (rpc0 : String) (rest : List String)
    (l p : Nat) (tr : List (Nat × String)) :
    runLoops (fun q u => .err (E q u)) (rpc0 :: rest) (l + 1 + 1) p tr =
      runLoops (fun q u => .err (E q u)) (rpc0 :: rest) (l + 1) (p + 1)
        (tr ++ (rpc0 :: rest).map (fun rpc => (p, rpc))) := by
  have hp := runPass_allErr E p (rpc0 :: rest)
    { loops := l + 1 + 1, res := none, attempts := tr } (by show l + 1 + 1 ≠ 1; omega)
  simp only [runLoops, hp]

/-- When every call errs, the retry loop runs full passes until the counter
reaches one and then rethrows the raw error of the FIRST candidate of that
final pass; the trace is `allErrTrace`. -/
theorem runLoops_allErr (E : Nat → String → Nat) (rpc0 : String) (rest : List String) :
    ∀ (l p : Nat) (tr : List (Nat × String)),
      runLoops (fun q u => .err (E q u)) (rpc0 :: rest) (l + 1) p tr =
        (.thrown (E (p + l) (jsSplitIdx1 rpc0)), tr ++ allErrTrace rpc0 rest p l) := by
  intro l
  induction l with
  | zero =>
    intro p tr
    simp [runLoops, runPass, allErrTrace]
  | succ l ih =>
    intro p tr
    rw [runLoops_allErr_step E rpc0 rest l p tr,
      ih (p + 1) (tr ++ (rpc0 :: rest).map (fun rpc => (p, rpc)))]
    have harith : p + 1 + l = p + (l + 1) := by omega
    rw [harith]
    simp [allErrTrace, List.append_assoc]

/-- C3 amended: when the primary call fails and every failover call errs,
the dispatcher returns no normal result: it rethrows, raw and unwrapped,
the error of the first candidate of the final pass (later candidates of
the final pass are never attempted), after full passes over the snapshot
for the earlier rounds. -/
theorem C3_exhaustion_throws_raw_last_error (E : Nat → String → Nat)
    (latencies : List (String × Nat)) (l e0 : Nat) (rpc0 : String) (restKeys : List String)
    (hsorted : (sortByDuration latencies).map Prod.fst = rpc0 :: restKeys) :
    proxyCall latencies (l + 1) (.err e0) (fun q u => .err (E q u)) =
      (.thrown (E l (jsSplitIdx1 rpc0)), allErrTrace rpc0 restKeys 0 l) := by
  have hne : sortByDuration latencies ≠ [] := by
    intro hnil
    rw [hnil] at hsorted
    simp at hsorted
  simp only [proxyCall, List.isEmpty_iff, hne, if_false, hsorted]
  have := runLoops_allErr E rpc0 restKeys l 0 []
  rw [this]
  simp

/-- The per-pass, per-candidate error codes of the C3 witness. -/
def c3ErrCode : Nat → String → Nat := fun p u =>
  if p = 0 then (if u = "A" then 1 else 2) else (if u = "A" then 3 else 4)

/-- C3 amended witness: snapshot `[A:10, B:20]`, `retryCount = 2`, every
call erring: the raw error of A on the final pass is thrown. -/
theorem C3_exhaustion_throws_raw_last_error_witness :
    proxyCall [("1__A", 10), ("1__B", 20)] 2 (.err 0)
        (fun q u => .err (c3ErrCode q u)) =
      (.thrown (c3ErrCode 1 (jsSplitIdx1 "1__A")), allErrTrace "1__A" ["1__B"] 0 1) :=
  C3_exhaustion_throws_raw_last_error c3ErrCode [("1__A", 10), ("1__B", 20)] 1 0
    "1__A" ["1__B"] rfl

/-- The scope-filtered view of the latency table (the `validLatencies`
object of `findFastestRpc`). -/
def scopeLatencies (latencies : List (String × Nat)) (networkId : String) :
    List (String × Nat) :=
  latencies.filter (fun p => jsStartsWith p.1 (networkId ++ "__"))

/-- The duration read for a key of the filtered table (absent keys read 0;
the reduce only ever reads keys of the table). -/
def keyDuration (l : List (String × Nat)) (j : String) : Nat := (jsLookup l j).getD 0

/-- The reduce `(a, b) => val[a] < val[b] ? a : b` picks an element of
minimum value, and among the elements attaining the minimum it picks the
LAST one in list order. -/
theorem foldl_min_last (val : String → Nat) :
    ∀ (ks : List String) (k : String),
      (∀ j ∈ k :: ks,
        val (ks.foldl (fun a c => if val a < val c then a else c) k) ≤ val j) ∧
      ((k :: ks).filter
          (fun j => decide
            (val j ≤ val (ks.foldl (fun a c => if val a < val c then a else c) k)))).getLast?
        = some (ks.foldl (fun a c => if val a < val c then a else c) k) := by
  intro ks
  induction ks with
  | nil =>
    intro k
    constructor
    · intro j hj
      simp only [List.foldl_nil]
      simp at hj
      rw [hj]
    · simp
  | cons b bs ih =>
    intro k
    have hstep : ∀ j : String, (b :: bs).foldl (fun a c => if val a < val c then a else c) k
        = bs.foldl (fun a c => if val a < val c then a else c) (if val k < val b then k else b) :=
      fun _ => List.foldl_cons ..
    rw [hstep k]
    by_cases hkb : val k < val b
    · rw [if_pos hkb]
      obtain ⟨ih1, ih2⟩ := ih k
      set w := bs.foldl (fun a c => if val a < val c then a else c) k with hw
      have hwk : val w ≤ val k := ih1 k (List.mem_cons_self k bs)
      have hPb : decide (val b ≤ val w) = false := by
        simp only [decide_eq_false_iff_not]
        omega
      constructor
      · intro j hj
        simp only [List.mem_cons] at hj
        rcases hj with rfl | rfl | hj
        · exact hwk
        · omega
        · exact ih1 j (List.mem_cons_of_mem k hj)
      · simp only [List.filter_cons, hPb, Bool.false_eq_true, if_false] at ih2 ⊢
        exact ih2
    · rw [if_neg hkb]
      obtain ⟨ih1, ih2⟩ := ih b
      set w := bs.foldl (fun a c => if val a < val c then a else c) b with hw
      have hwb : val w ≤ val b := ih1 b (List.mem_cons_self b bs)
      constructor
      · intro j hj
        simp only [List.mem_cons] at hj
        rcases hj with rfl | rfl | hj
        · omega
        · exact hwb
        · exact ih1 j (List.mem_cons_of_mem b hj)
      · by_cases hPk : val k ≤ val w
        · have hPk' : decide (val k ≤ val w) = true := by simp [hPk]
          have hPb : decide (val b ≤ val w) = true := by
            simp only [decide_eq_true_eq]
            omega
          simp only [List.filter_cons, hPk', if_true, hPb, List.getLast?_cons_cons] at ih2 ⊢
          exact ih2
        · have hPk' : decide (val k ≤ val w) = false := by simp [hPk]
          simp only [List.filter_cons, hPk', Bool.false_eq_true, if_false]
          simp only [List.filter_cons] at ih2
          exact ih2

/-- C4 amended: for a table with at least one scope entry, `findFastestRpc`
returns the endpoint text (the segment between the first and second `__`)
of a key attaining the minimum duration among the scope's entries, and on
ties that key is the LAST minimal key in the table's insertion order (not
the lexicographically smallest). -/
theorem C4_min_duration_last_tie (latencies : List (String × Nat)) (networkId : String)
    (hne : scopeLatencies latencies networkId ≠ []) :
    ∃ kmin,
      (∀ j ∈ (scopeLatencies latencies networkId).map Prod.fst,
        keyDuration (scopeLatencies latencies networkId) kmin ≤
          keyDuration (scopeLatencies latencies networkId) j) ∧
      (((scopeLatencies latencies networkId).map Prod.fst).filter
          (fun j => decide (keyDuration (scopeLatencies latencies networkId) j ≤
            keyDuration (scopeLatencies latencies networkId) kmin))).getLast? = some kmin ∧
      RPCService.findFastestRpc latencies networkId = Except.ok (some (jsSplitIdx1 kmin)) := by
  have hlat : ¬ latencies.length = 0 := by
    intro h0
    apply hne
    rw [List.length_eq_zero] at h0
    rw [scopeLatencies, h0]
    rfl
  cases hmap : (scopeLatencies latencies networkId).map Prod.fst with
  | nil =>
    exfalso
    apply hne
    exact List.map_eq_nil_iff.mp hmap
  | cons k ks =>
    obtain ⟨h1, h2⟩ := foldl_min_last (keyDuration (scopeLatencies latencies networkId)) ks k
    refine ⟨ks.foldl (fun a c => if keyDuration (scopeLatencies latencies networkId) a <
        keyDuration (scopeLatencies latencies networkId) c then a else c) k, ?_, ?_, ?_⟩
    · exact h1
    · exact h2
    · have hmap' : (latencies.filter (fun p => jsStartsWith p.1 (networkId ++ "__"))).map
          Prod.fst = k :: ks := hmap
      simp only [RPCService.findFastestRpc, hlat, if_false, hmap']
      rfl

/-- C4 witness: the specification's example table; selection returns B (the
unique minimum), instantiating the last-minimal-key characterization. -/
theorem C4_min_duration_last_tie_witness :
    (∃ kmin,
      (∀ j ∈ (scopeLatencies [("1__A", 120), ("1__B", 80), ("1__C", 200)] "1").map Prod.fst,
        keyDuration (scopeLatencies [("1__A", 120), ("1__B", 80), ("1__C", 200)] "1") kmin ≤
          keyDuration (scopeLatencies [("1__A", 120), ("1__B", 80), ("1__C", 200)] "1") j) ∧
      (((scopeLatencies [("1__A", 120), ("1__B", 80), ("1__C", 200)] "1").map Prod.fst).filter
          (fun j => decide
            (keyDuration (scopeLatencies [("1__A", 120), ("1__B", 80), ("1__C", 200)] "1") j ≤
             keyDuration (scopeLatencies [("1__A", 120), ("1__B", 80), ("1__C", 200)] "1")
               kmin))).getLast? = some kmin ∧
      RPCService.findFastestRpc [("1__A", 120), ("1__B", 80), ("1__C", 200)] "1" =
        Except.ok (some (jsSplitIdx1 kmin))) ∧
    RPCService.findFastestRpc [("1__A", 120), ("1__B", 80), ("1__C", 200)] "1" =
      Except.ok (some "B") :=
  ⟨C4_min_duration_last_tie [("1__A", 120), ("1__B", 80), ("1__C", 200)] "1" (by decide),
    rfl⟩

/-- C8: against a post-probe state whose table has no entry for the scope,
selection fails: `findFastestRpc` yields no endpoint (it throws on a fully
empty table and returns null on a scope-empty one), and the handler's
`testRpcPerformance` throws instead of returning a bound provider. -/
theorem C8_scope_empty_selection_fails (s : RPCHandlerState) (env : String → HttpOutcome)
    (w : Nat)
    (h : scopeLatencies (RPCHandler.probedState s env w).latencies
        (RPCHandler.probedState s env w).networkId = []) :
    (∀ e, RPCService.findFastestRpc (RPCHandler.probedState s env w).latencies
        (RPCHandler.probedState s env w).networkId ≠ Except.ok (some e)) ∧
    ∃ m, RPCHandler.testRpcPerformance s env w = Except.error m := by
  set s1 := RPCHandler.probedState s env w with hs1
  rw [scopeLatencies] at h
  have hfind : RPCService.findFastestRpc s1.latencies s1.networkId =
      Except.error "[RPCService] No latencies found" ∨
      RPCService.findFastestRpc s1.latencies s1.networkId = Except.ok none := by
    by_cases hlen : s1.latencies.length = 0
    · left
      simp [RPCService.findFastestRpc, hlen]
    · right
      simp [RPCService.findFastestRpc, hlen, h]
  have hsel : ∃ m, RPCHandler.selectProvider s1 = Except.error m := by
    cases hfind with
    | inl hf =>
      exact ⟨"[RPCService] No latencies found", by simp [RPCHandler.selectProvider, hf]⟩
    | inr hf =>
      exact ⟨"Failed to find fastest RPC", by simp [RPCHandler.selectProvider, hf]⟩
  obtain ⟨m, hm⟩ := hsel
  constructor
  · intro e hcontra
    cases hfind with
    | inl hf => rw [hf] at hcontra; simp at hcontra
    | inr hf => rw [hf] at hcontra; simp at hcontra
  · refine ⟨m, ?_⟩
    simp only [RPCHandler.testRpcPerformance, ← hs1, hm]

/-- C8 witness: a handler with no registered endpoints: the probe cycle
measures nothing and selection throws. -/
theorem C8_scope_empty_selection_fails_witness :
    ∃ m, RPCHandler.testRpcPerformance ⟨"1", [], [], [], 0, 10, none⟩
        (fun _ => HttpOutcome.transportError) 0 = Except.error m :=
  (C8_scope_empty_selection_fails ⟨"1", [], [], [], 0, 10, none⟩
    (fun _ => HttpOutcome.transportError) 0 rfl).2
